import Mathlib

/-!
Shallow embedding of `sigchainlib/sigchain.cc` (the ART signal-chain
interposition library) and proofs about its specification.

Modelling conventions:
* Signal sets (`sigset_t` / `sigset64_t`) are modelled as `Finset Nat`
  of signal numbers; `sigemptyset` is `∅`, `sigaddset` is `insert`,
  `sigdelset` is `Finset.erase`, `sigismember` is `∈`, and the local
  `sigorset` template of sigchain.cc (which ors the two sets bit by bit)
  is set union.
* `sa_flags` stays a bit mask on `Nat`, because the code masks flags with
  `&`; the flag constants carry their Linux values.
* Handler pointers (`sa_handler` / `sa_sigaction` share a union in C) are
  an inductive type: `SIG_DFL`, `SIG_IGN`, the central dispatcher
  `SignalChain::Handler`, or an application handler identified by a number.
* The per-thread handling-signal bitmap (one bit per signal, spread over
  pthread keys) is modelled as the `Finset Nat` of signal numbers whose
  bit is set for the calling thread.
* The extended-width (`sigaction64`) variant of the code is modelled; the
  two structure widths of the source coincide in the model, so
  `GetAction`/`SetAction` are the same-type instantiations (plus the flag
  masking that `SetAction` applies in every instantiation).
* The kernel is an environment: `kaccept` maps an installed action to the
  action the kernel actually stores (newer kernels clear unsupported flag
  bits), and the kernel's current dispositions are a function from signal
  numbers to actions.
* The dispatcher is instrumented: it returns the list of observable events
  (calls through the real `sigprocmask`, special-handler invocations, user
  handler invocations) next to its final state.
-/

namespace art

/-- `_NSIG` on Linux: one greater than the highest signal number. -/
def NSIG : Nat := 65

/-- `EINVAL` errno value. -/
def EINVAL : Nat := 22

def SA_NOCLDSTOP : Nat := 0x00000001

def SA_NOCLDWAIT : Nat := 0x00000002

def SA_SIGINFO : Nat := 0x00000004

/-- Defined at the top of sigchain.cc. -/
def SA_UNSUPPORTED : Nat := 0x00000400

/-- Defined at the top of sigchain.cc. -/
def SA_EXPOSE_TAGBITS : Nat := 0x00000800

/-- Defined by sigchain.cc itself when the libc headers do not provide it. -/
def SA_RESTORER : Nat := 0x04000000

def SA_ONSTACK : Nat := 0x08000000

def SA_RESTART : Nat := 0x10000000

def SA_NODEFER : Nat := 0x40000000

def SA_RESETHAND : Nat := 0x80000000

/-- Modelled from the spec: `sigchain.h` is not among the source files; the
spec says the only defined bit of `SigchainAction.sc_flags` is
`ALLOW_NORETURN`, which we place at the lowest bit. Only its identity as a
single bit matters to the code under verification. -/
def SIGCHAIN_ALLOW_NORETURN : Nat := 0x1

/-- The handler slot of a `struct sigaction` (`sa_handler` and `sa_sigaction`
share a union in C): `SIG_DFL`, `SIG_IGN`, the central dispatcher
`SignalChain::Handler`, or an application handler identified abstractly. -/
inductive SigHandler where
  | dfl
  | ign
  | dispatcher
  | user (id : Nat)
deriving DecidableEq

/-- A `struct sigaction` / `struct sigaction64`. -/
structure SigAction where
  sa_handler : SigHandler
  sa_flags : Nat
  sa_mask : Finset Nat
deriving DecidableEq

/-- A runtime-registered special handler (`SigchainAction` from sigchain.h,
as used by sigchain.cc): the handler function (identified by number), the
mask to install while it runs, and its flags. -/
structure SigchainAction where
  sc_sigaction : Nat
  sc_mask : Finset Nat
  sc_flags : Nat
deriving DecidableEq

/-- The per-signal chain record (class `SignalChain`). `special_handlers_`
is a null-terminated array of capacity 2 in C; the model keeps the list of
its non-null prefix, which is exactly what the dispatcher iterates. -/
structure SignalChain where
  claimed : Bool
  kernel_supported_flags : Nat
  action : SigAction
  orig_action : SigAction
  special_handlers : List SigchainAction
deriving DecidableEq

/-- `SetHandlingSignal(signo, value)` on the per-thread bitmap, returning the
new bitmap (the C function returns the previous bit; callers of the model
read it off the old bitmap directly). -/
def SetHandlingSignal (handling : Finset Nat) (signo : Nat) (value : Bool) : Finset Nat :=
  if value then insert signo handling else handling.erase signo

/-- Observable events of one dispatcher run: installations of a thread mask
through the real `sigprocmask(SIG_SETMASK, ...)`, special-handler calls
(recording the handler id, whether it declared `ALLOW_NORETURN`, and whether
the thread's handling bit for the signal was set during the call), user
handler calls of either style, and the reinstallation of `SIG_DFL` through
the real `sigaction`. -/
inductive Event where
  | setMask (m : Finset Nat)
  | specialCall (id : Nat) (noret : Bool) (bitDuring : Bool)
  | userSiginfo (h : SigHandler)
  | userHandler (h : SigHandler)
  | installDefault
deriving DecidableEq

/-- Environment of one dispatcher run: the boolean each special handler
returns, the platform-recovery hook `android_handle_signal` (`none` when the
weak symbol is absent, `some b` when present and returning `b`), and the
saved signal mask found in the passed-in ucontext. -/
structure DispatchEnv where
  specialResult : Nat → Bool
  android : Option Bool
  uc_sigmask : Finset Nat

/-- The dispatcher-visible mutable state of the calling thread: its
handling-signal bitmap and its kernel-side signal mask (the one the real
`sigprocmask` manipulates). -/
structure DispatchState where
  handling : Finset Nat
  threadMask : Finset Nat
deriving DecidableEq

/-- The special-handler loop of `SignalChain::Handler` (sigchain.cc lines
436-455).  For each handler: install its `sc_mask` saving the previous mask,
set the handling bit unless the handler declared `ALLOW_NORETURN` (scoped,
restored when the call completes), call it; a `true` result returns
immediately (the saved mask is not restored, the handling bit is), a `false`
result restores the saved mask and continues.  Returns the events, the final
state, and whether some handler returned `true`. -/
def runSpecials (env : DispatchEnv) (signo : Nat) :
    List SigchainAction → DispatchState → List Event × DispatchState × Bool
  | [], st => ([], st, false)
  | h :: rest, st =>
    let noret : Bool := (h.sc_flags &&& SIGCHAIN_ALLOW_NORETURN) != 0
    let prevMask := st.threadMask
    let st1 : DispatchState := { st with threadMask := h.sc_mask }
    let prevBit : Bool := decide (signo ∈ st1.handling)
    let st2 : DispatchState :=
      if noret then st1 else { st1 with handling := insert signo st1.handling }
    let ev : Event := Event.specialCall h.sc_sigaction noret (decide (signo ∈ st2.handling))
    if env.specialResult h.sc_sigaction then
      ([Event.setMask h.sc_mask, ev],
       { st2 with handling := SetHandlingSignal st2.handling signo prevBit }, true)
    else
      let st3 : DispatchState :=
        { st2 with
          handling := SetHandlingSignal st2.handling signo prevBit
          threadMask := prevMask }
      let r := runSpecials env signo rest st3
      (Event.setMask h.sc_mask :: ev :: Event.setMask prevMask :: r.1, r.2)

/-- The mask composed for the chained user action (sigchain.cc lines
511-522): `sigorset` of the ucontext's saved mask and the action's mask,
plus `signo` itself unless the action has `SA_NODEFER`. -/
def userMask (a : SigAction) (uc : Finset Nat) (signo : Nat) : Finset Nat :=
  let m := uc ∪ a.sa_mask
  if a.sa_flags &&& SA_NODEFER = 0 then insert signo m else m

/-- The dispatch-by-style step of `SignalChain::Handler` (sigchain.cc lines
530-561): with `SA_SIGINFO`, call the three-argument handler; otherwise
return for `SIG_IGN`, reinstall the kernel default and return for `SIG_DFL`,
and call the one-argument handler in every other case. -/
def userTail (a : SigAction) : List Event :=
  if a.sa_flags &&& SA_SIGINFO != 0 then
    [Event.userSiginfo a.sa_handler]
  else
    match a.sa_handler with
    | SigHandler.ign => []
    | SigHandler.dfl => [Event.installDefault]
    | h => [Event.userHandler h]

/-- `SignalChain::Handler`, the central dispatcher (sigchain.cc lines
432-562): the special-handler phase (skipped when the thread's handling bit
for `signo` is already set at entry), then the platform-recovery hook
`android_handle_signal` (called when present; a `true` result returns), then
the chained-user-action phase, which installs the composed mask through the
real `sigprocmask` and dispatches the stored action by its declared style.
The BIONIC-only MTE `orig_action_` override and tag-bit stripping, which are
driven by `si_code` and `mallopt`, are outside the modelled platform. -/
def SignalChain.Handler (chains : Nat → SignalChain) (env : DispatchEnv) (signo : Nat)
    (st : DispatchState) : List Event × DispatchState :=
  let r :=
    if signo ∈ st.handling then ([], st, false)
    else runSpecials env signo (chains signo).special_handlers st
  if r.2.2 then (r.1, r.2.1)
  else if env.android = some true then (r.1, r.2.1)
  else
    let a := (chains signo).action
    let m := userMask a env.uc_sigmask signo
    (r.1 ++ Event.setMask m :: userTail a, { r.2.1 with threadMask := m })

/-- The process-wide state visible to the interposed API: the per-signal
chain records (`chains[_NSIG]`), the debug-mode flag set by
`SkipAddSignalHandler`, the kernel's current dispositions (reached through
the resolved `linked_sigaction`), and the kernel's storing behaviour
`kaccept` (newer kernels clear flag bits they do not support; `kaccept` maps
an installed action to the one the kernel stores and reads back). -/
structure SigchainState where
  chains : Nat → SignalChain
  is_signal_hook_debuggable : Bool
  kernel : Nat → SigAction
  kaccept : SigAction → SigAction

/-- `SignalChain::GetAction` at the record's own width. -/
def SignalChain.GetAction (c : SignalChain) : SigAction :=
  c.action

/-- `SignalChain::SetAction` (sigchain.cc lines 361-376): store the incoming
action, then mask its flags with `kernel_supported_flags_` (the masking is
applied in every instantiation of the template). -/
def SignalChain.SetAction (c : SignalChain) (a : SigAction) : SignalChain :=
  { c with action := { a with sa_flags := a.sa_flags &&& c.kernel_supported_flags } }

/-- The real libc `sigaction` reached through the resolver: returns the
previous disposition and, when a new action is given, stores what the kernel
keeps of it (`kaccept`). -/
def linked_sigaction (st : SigchainState) (signo : Nat) (new_action : Option SigAction) :
    SigAction × SigchainState :=
  (st.kernel signo,
   match new_action with
   | some a => { st with kernel := Function.update st.kernel signo (st.kaccept a) }
   | none => st)

/-- Result of one interposed `sigaction` call: the return value, the errno
set (if any), the value written to `*old_action` (`none` when `old_action`
is null or nothing was written), the state afterwards, and whether the call
went through to the real libc `sigaction`. -/
structure SigactionResult where
  ret : Int
  errno : Option Nat
  old_out : Option SigAction
  state : SigchainState
  linked_called : Bool

/-- The interposed `__sigaction` template (sigchain.cc lines 564-601):
debug-mode short-circuit, then range validation, then either the
chain-record update (claimed signal) or forwarding to the real libc
`sigaction`.  `wantOld` is whether the caller passed a non-null
`old_action`. -/
def __sigaction (st : SigchainState) (signo : Int) (new_action : Option SigAction)
    (wantOld : Bool) : SigactionResult :=
  if st.is_signal_hook_debuggable then
    ⟨0, none, none, st, false⟩
  else if signo ≤ 0 ∨ (NSIG : Int) ≤ signo then
    ⟨-1, some EINVAL, none, st, false⟩
  else
    let s := signo.toNat
    if (st.chains s).claimed then
      let saved := (st.chains s).GetAction
      let st1 :=
        match new_action with
        | some a =>
          { st with chains := Function.update st.chains s ((st.chains s).SetAction a) }
        | none => st
      ⟨0, none, if wantOld then some saved else none, st1, false⟩
    else
      let r := linked_sigaction st s new_action
      ⟨0, none, if wantOld then some r.1 else none, r.2, true⟩

/-- Result of one interposed `signal` call: the returned previous handler
(`none` stands for `SIG_ERR`), the errno set (if any), and the state
afterwards. -/
structure SignalResult where
  ret : Option SigHandler
  errno : Option Nat
  state : SigchainState

/-- The interposed `signal` (sigchain.cc lines 617-647): range validation,
then a `sigaction`-style install of `⟨handler, SA_RESTART | SA_ONSTACK, ∅⟩`,
either into the chain record (claimed signal, returning the previously
stored one-argument handler) or through the real libc `sigaction`. -/
def signal (st : SigchainState) (signo : Int) (handler : SigHandler) : SignalResult :=
  if signo ≤ 0 ∨ (NSIG : Int) ≤ signo then
    ⟨none, some EINVAL, st⟩
  else
    let sa : SigAction := ⟨handler, SA_RESTART ||| SA_ONSTACK, ∅⟩
    let s := signo.toNat
    if (st.chains s).claimed then
      let old := (st.chains s).GetAction.sa_handler
      ⟨some old, none,
       { st with chains := Function.update st.chains s ((st.chains s).SetAction sa) }⟩
    else
      let r := linked_sigaction st s (some sa)
      ⟨some r.1.sa_handler, none, r.2⟩

/-- The `how` argument of `sigprocmask`. -/
inductive SigHow where
  | block
  | unblock
  | setmask
deriving DecidableEq

/-- The claimed-signal filter of the interposed `__sigprocmask` (sigchain.cc
lines 670-678): for every signal number from 1 to `_NSIG - 1`, if its chain
is claimed and it is a member of the temporary set, delete it. -/
def filterClaimed (chains : Nat → SignalChain) (m : Finset Nat) : Finset Nat :=
  (List.range' 1 (NSIG - 1)).foldl
    (fun acc i => if (chains i).claimed = true ∧ i ∈ acc then acc.erase i else acc) m

/-- The interposed `__sigprocmask` template (sigchain.cc lines 657-683),
returning the `(how, set)` pair it forwards to the real `sigprocmask`: the
arguments unmodified when any handling bit of the calling thread is set,
otherwise the new set with every claimed signal filtered out when `how` is
`SIG_BLOCK` or `SIG_SETMASK`. -/
def __sigprocmask (chains : Nat → SignalChain) (handling : Finset Nat) (how : SigHow)
    (new_set : Option (Finset Nat)) : SigHow × Option (Finset Nat) :=
  if handling ≠ ∅ then
    (how, new_set)
  else
    match new_set with
    | none => (how, none)
    | some m =>
      if how = SigHow.block ∨ how = SigHow.setmask then
        (how, some (filterClaimed chains m))
      else
        (how, some m)

/-- Kernel semantics of `sigprocmask` (environment model, not repository
code): how the kernel combines the thread's current mask with a forwarded
set. -/
def applyHow : SigHow → Finset Nat → Finset Nat → Finset Nat
  | SigHow.block, cur, m => cur ∪ m
  | SigHow.unblock, cur, m => cur \ m
  | SigHow.setmask, _, m => m

/-- The thread mask resulting from forwarding `fwd` (as produced by
`__sigprocmask`) to the real `sigprocmask` when the current mask is
`cur`. -/
def resultingMask (cur : Finset Nat) (fwd : SigHow × Option (Finset Nat)) : Finset Nat :=
  match fwd.2 with
  | none => cur
  | some m => applyHow fwd.1 cur m

/-- `sigfillset` on the modelled signal sets. -/
def fullSigset : Finset Nat := Finset.range NSIG

/-- The flags of the probe action `SignalChain::Register` installs
(sigchain.cc lines 294-296). -/
def registerFlags : Nat :=
  SA_RESTART ||| SA_SIGINFO ||| SA_ONSTACK ||| SA_UNSUPPORTED ||| SA_EXPOSE_TAGBITS

/-- The probe action `SignalChain::Register` installs: the central
dispatcher, full mask, `registerFlags`. -/
def registerAction : SigAction :=
  ⟨SigHandler.dispatcher, registerFlags, fullSigset⟩

/-- `SignalChain::Register` (sigchain.cc lines 285-342): install the probe
action saving the previous kernel disposition into `action_` (and
`orig_action_`), read the stored action back, and compute
`kernel_supported_flags_`: the hard-coded baseline, plus
`SA_EXPOSE_TAGBITS` iff the read-back has `SA_UNSUPPORTED` cleared and
`SA_EXPOSE_TAGBITS` still present. -/
def SignalChain.Register (st : SigchainState) (signo : Nat) : SigchainState :=
  let r1 := linked_sigaction st signo (some registerAction)
  let prev := r1.1
  let readback := (linked_sigaction r1.2 signo none).1
  let base : Nat := SA_NOCLDSTOP ||| SA_NOCLDWAIT ||| SA_SIGINFO ||| SA_ONSTACK |||
    SA_RESTART ||| SA_NODEFER ||| SA_RESETHAND ||| SA_RESTORER
  let ksf : Nat :=
    if readback.sa_flags &&& SA_UNSUPPORTED = 0 ∧ readback.sa_flags &&& SA_EXPOSE_TAGBITS ≠ 0
    then base ||| SA_EXPOSE_TAGBITS else base
  { r1.2 with
    chains := Function.update st.chains signo
      { st.chains signo with
        action := prev
        orig_action := prev
        kernel_supported_flags := ksf } }

/-- `SignalChain::Claim` (sigchain.cc lines 277-282): register with the
kernel and set `claimed_`, once. -/
def SignalChain.Claim (st : SigchainState) (signo : Nat) : SigchainState :=
  if (st.chains signo).claimed then st
  else
    let st1 := SignalChain.Register st signo
    { st1 with
      chains := Function.update st1.chains signo
        { st1.chains signo with claimed := true } }

/-- `EnsureFrontOfChain` (sigchain.cc lines 721-743), past its validity
check: read the kernel's current disposition through the real `sigaction`;
if its handler is not the central dispatcher, run
`SignalChain::Register` again. -/
def EnsureFrontOfChain (st : SigchainState) (signo : Nat) : SigchainState :=
  let current := (linked_sigaction st signo none).1
  if current.sa_handler ≠ SigHandler.dispatcher then SignalChain.Register st signo else st

/-- The event trace of a full pass over the special handlers in which every
handler returned `false`: for each handler, the mask install, the call (with
the handling bit set during the call exactly when the handler did not
declare `ALLOW_NORETURN`), and the mask restore. -/
def specialTrace (origMask : Finset Nat) : List SigchainAction → List Event
  | [] => []
  | h :: rest =>
    Event.setMask h.sc_mask ::
    Event.specialCall h.sc_sigaction ((h.sc_flags &&& SIGCHAIN_ALLOW_NORETURN) != 0)
      (!((h.sc_flags &&& SIGCHAIN_ALLOW_NORETURN) != 0)) ::
    Event.setMask origMask :: specialTrace origMask rest

/-- Whether an event is an invocation of the chained user action (of either
dispatch style). -/
def isUserInvocation : Event → Bool
  | Event.userSiginfo _ => true
  | Event.userHandler _ => true
  | _ => false

/-- Whether an event is an invocation of a special handler. -/
def isSpecialCall : Event → Bool
  | Event.specialCall _ _ _ => true
  | _ => false

/-- An unclaimed, zeroed chain record, as the BSS zero-initialisation leaves
it. -/
def chain0 : SignalChain :=
  ⟨false, 0, ⟨SigHandler.dfl, 0, ∅⟩, ⟨SigHandler.dfl, 0, ∅⟩, []⟩

/-- Sample special handler without flags. -/
def specialA : SigchainAction := ⟨100, {7}, 0⟩

/-- Sample special handler that declared `ALLOW_NORETURN`. -/
def specialB : SigchainAction := ⟨101, {8}, SIGCHAIN_ALLOW_NORETURN⟩

/-- Sample stored user action using the `SA_SIGINFO` dispatch style. -/
def actA : SigAction := ⟨SigHandler.user 5, SA_SIGINFO, {12}⟩

/-- Sample claimed chain record for signal 11. -/
def chainA : SignalChain :=
  ⟨true, SA_SIGINFO ||| SA_RESTART ||| SA_ONSTACK ||| SA_NODEFER, actA,
   ⟨SigHandler.dfl, 0, ∅⟩, [specialA, specialB]⟩

/-- Sample chain array: signal 11 claimed, everything else zeroed. -/
def chainsA : Nat → SignalChain := fun i => if i = 11 then chainA else chain0

/-- Sample dispatch environment: every special handler returns `false`, the
platform-recovery hook is absent. -/
def envA : DispatchEnv := ⟨fun _ => false, none, {3}⟩

/-- Sample dispatch state with no handling bit set. -/
def stA : DispatchState := ⟨∅, {4}⟩

/-- Sample dispatch state with the handling bit for signal 11 set. -/
def stB : DispatchState := ⟨{11}, {4}⟩

/-- Sample process state: chain 11 claimed, debug bypass off, default kernel
dispositions, a kernel that stores actions verbatim. -/
def sstA : SigchainState := ⟨chainsA, false, fun _ => ⟨SigHandler.dfl, 0, ∅⟩, id⟩

/-- Sample process state with the debug bypass (`SkipAddSignalHandler(true)`)
switched on. -/
def sstDebug : SigchainState := ⟨chainsA, true, fun _ => ⟨SigHandler.dfl, 0, ∅⟩, id⟩

/-- Sample process state in which some library clobbered the kernel
disposition of signal 11 while the chain record still holds a stored user
action. -/
def sstClobbered : SigchainState :=
  ⟨chainsA, false, fun i => if i = 11 then ⟨SigHandler.user 33, SA_SIGINFO, {2}⟩
    else ⟨SigHandler.dfl, 0, ∅⟩, id⟩

/-! ## Helper lemmas -/

theorem runSpecials_allFalse (env : DispatchEnv) (signo : Nat) (l : List SigchainAction)
    (st : DispatchState) (hmem : signo ∉ st.handling)
    (hres : ∀ h ∈ l, env.specialResult h.sc_sigaction = false) :
    runSpecials env signo l st = (specialTrace st.threadMask l, st, false) := by
  induction l with
  | nil => simp [runSpecials, specialTrace]
  | cons h rest ih =>
    have hh : env.specialResult h.sc_sigaction = false := hres h (List.mem_cons_self h rest)
    have hrest : ∀ h' ∈ rest, env.specialResult h'.sc_sigaction = false :=
      fun h' hm => hres h' (List.mem_cons_of_mem h hm)
    by_cases hnr : (h.sc_flags &&& SIGCHAIN_ALLOW_NORETURN) != 0
    · simp only [runSpecials, hnr, if_true, hh, Bool.false_eq_true, if_false,
        SetHandlingSignal, decide_eq_true_eq, Finset.erase_eq_of_not_mem hmem]
      rw [if_neg hmem]
      have e3 : ({ handling := st.handling, threadMask := st.threadMask } : DispatchState) = st :=
        rfl
      rw [e3, ih hrest]
      simp only [specialTrace, hnr]
      simp [hmem]
    · have hnr' : ((h.sc_flags &&& SIGCHAIN_ALLOW_NORETURN) != 0) = false := by
        simpa using hnr
      simp only [runSpecials, hnr', Bool.false_eq_true, if_false, hh,
        SetHandlingSignal, decide_eq_true_eq]
      rw [if_neg hmem]
      have e1 : (insert signo st.handling).erase signo = st.handling :=
        Finset.erase_insert hmem
      have e2 : decide (signo ∈ insert signo st.handling) = true := by simp
      rw [e1, e2]
      have e3 : ({ handling := st.handling, threadMask := st.threadMask } : DispatchState) = st :=
        rfl
      rw [e3, ih hrest]
      simp [specialTrace, hnr']

theorem Handler_allFalse (chains : Nat → SignalChain) (env : DispatchEnv) (signo : Nat)
    (st : DispatchState) (hmem : signo ∉ st.handling)
    (hres : ∀ h ∈ (chains signo).special_handlers, env.specialResult h.sc_sigaction = false) :
    SignalChain.Handler chains env signo st =
      if env.android = some true then
        (specialTrace st.threadMask (chains signo).special_handlers, st)
      else
        (specialTrace st.threadMask (chains signo).special_handlers ++
           Event.setMask (userMask (chains signo).action env.uc_sigmask signo) ::
             userTail (chains signo).action,
         { st with threadMask := userMask (chains signo).action env.uc_sigmask signo }) := by
  rw [SignalChain.Handler, if_neg hmem, runSpecials_allFalse env signo _ st hmem hres]
  by_cases ha : env.android = some true
  · simp [ha]
  · simp [ha]

theorem Handler_reentry (chains : Nat → SignalChain) (env : DispatchEnv) (signo : Nat)
    (st : DispatchState) (hmem : signo ∈ st.handling) :
    SignalChain.Handler chains env signo st =
      if env.android = some true then ([], st)
      else
        (Event.setMask (userMask (chains signo).action env.uc_sigmask signo) ::
           userTail (chains signo).action,
         { st with threadMask := userMask (chains signo).action env.uc_sigmask signo }) := by
  rw [SignalChain.Handler, if_pos hmem]
  by_cases ha : env.android = some true
  · simp [ha]
  · simp [ha]

theorem runSpecials_handling (env : DispatchEnv) (signo : Nat) (l : List SigchainAction)
    (st : DispatchState) (hmem : signo ∉ st.handling) :
    (runSpecials env signo l st).2.1.handling = st.handling ∧
      (∀ id nr bd, Event.specialCall id nr bd ∈ (runSpecials env signo l st).1 → bd = !nr) := by
  induction l with
  | nil => simp [runSpecials]
  | cons h rest ih =>
    by_cases hnr : (h.sc_flags &&& SIGCHAIN_ALLOW_NORETURN) != 0
    · simp only [runSpecials, hnr, if_true, Bool.false_eq_true, if_false,
        SetHandlingSignal, decide_eq_true_eq]
      rw [if_neg hmem]
      by_cases hr : env.specialResult h.sc_sigaction
      · simp only [hr, if_true]
        refine ⟨Finset.erase_eq_of_not_mem hmem, ?_⟩
        intro id nr bd hb
        simp only [List.mem_cons, List.mem_singleton, List.not_mem_nil, or_false] at hb
        rcases hb with hb | hb
        · exact absurd hb (by simp)
        · rw [Event.specialCall.injEq] at hb
          rw [hb.2.1, hb.2.2]
          simp [hmem]
      · have hr' : env.specialResult h.sc_sigaction = false := by simpa using hr
        simp only [hr', Bool.false_eq_true, if_false, Finset.erase_eq_of_not_mem hmem]
        have e3 : ({ handling := st.handling, threadMask := st.threadMask } : DispatchState) =
            st := rfl
        rw [e3]
        refine ⟨ih.1, ?_⟩
        intro id nr bd hb
        simp only [List.mem_cons] at hb
        rcases hb with hb | hb | hb | hb
        · exact absurd hb (by simp)
        · rw [Event.specialCall.injEq] at hb
          rw [hb.2.1, hb.2.2]
          simp [hmem]
        · exact absurd hb (by simp)
        · exact ih.2 id nr bd hb
    · have hnr' : ((h.sc_flags &&& SIGCHAIN_ALLOW_NORETURN) != 0) = false := by
        simpa using hnr
      simp only [runSpecials, hnr', Bool.false_eq_true, if_false,
        SetHandlingSignal, decide_eq_true_eq]
      rw [if_neg hmem]
      have e1 : (insert signo st.handling).erase signo = st.handling :=
        Finset.erase_insert hmem
      by_cases hr : env.specialResult h.sc_sigaction
      · simp only [hr, if_true]
        refine ⟨e1, ?_⟩
        intro id nr bd hb
        simp only [List.mem_cons, List.mem_singleton, List.not_mem_nil, or_false] at hb
        rcases hb with hb | hb
        · exact absurd hb (by simp)
        · rw [Event.specialCall.injEq] at hb
          rw [hb.2.1, hb.2.2]
          simp
      · have hr' : env.specialResult h.sc_sigaction = false := by simpa using hr
        simp only [hr', Bool.false_eq_true, if_false, e1]
        have e3 : ({ handling := st.handling, threadMask := st.threadMask } : DispatchState) =
            st := rfl
        rw [e3]
        refine ⟨ih.1, ?_⟩
        intro id nr bd hb
        simp only [List.mem_cons] at hb
        rcases hb with hb | hb | hb | hb
        · exact absurd hb (by simp)
        · rw [Event.specialCall.injEq] at hb
          rw [hb.2.1, hb.2.2]
          simp
        · exact absurd hb (by simp)
        · exact ih.2 id nr bd hb

theorem userMask_eq (a : SigAction) (uc : Finset Nat) (signo : Nat) :
    userMask a uc signo =
      uc ∪ a.sa_mask ∪ (if a.sa_flags &&& SA_NODEFER = 0 then {signo} else ∅) := by
  ext x
  by_cases h : a.sa_flags &&& SA_NODEFER = 0
  · simp [userMask, h]
    tauto
  · simp [userMask, h]

theorem specialTrace_no_user (om : Finset Nat) (l : List SigchainAction) :
    ∀ e ∈ specialTrace om l, isUserInvocation e = false := by
  induction l with
  | nil => simp [specialTrace]
  | cons h rest ih =>
    intro e he
    simp only [specialTrace, List.mem_cons] at he
    rcases he with rfl | rfl | rfl | he
    · rfl
    · rfl
    · rfl
    · exact ih e he

theorem specialTrace_no_special_eq (om : Finset Nat) (l : List SigchainAction) :
    (specialTrace om l).filter isUserInvocation = [] := by
  rw [List.filter_eq_nil_iff]
  intro e he
  simp [specialTrace_no_user om l e he]

theorem userTail_no_special (a : SigAction) :
    ∀ e ∈ userTail a, isSpecialCall e = false := by
  intro e he
  by_cases hs : (a.sa_flags &&& SA_SIGINFO != 0) = true
  · simp only [userTail, hs, if_true, List.mem_singleton] at he
    subst he; rfl
  · have hs' : (a.sa_flags &&& SA_SIGINFO != 0) = false := by simpa using hs
    simp only [userTail, hs', Bool.false_eq_true, if_false] at he
    cases han : a.sa_handler <;> rw [han] at he <;> simp at he <;> subst he <;> rfl

theorem filter_userTail (a : SigAction)
    (hstyle : a.sa_flags &&& SA_SIGINFO ≠ 0 ∨
      (a.sa_handler ≠ SigHandler.ign ∧ a.sa_handler ≠ SigHandler.dfl)) :
    (userTail a).filter isUserInvocation =
      [if a.sa_flags &&& SA_SIGINFO != 0 then Event.userSiginfo a.sa_handler
       else Event.userHandler a.sa_handler] := by
  by_cases hs : a.sa_flags &&& SA_SIGINFO = 0
  · have hs' : (a.sa_flags &&& SA_SIGINFO != 0) = false := by simp [hs]
    rcases hstyle with h | ⟨h1, h2⟩
    · exact absurd hs h
    · rw [userTail, hs']
      cases han : a.sa_handler
      · exact absurd han h2
      · exact absurd han h1
      · simp [isUserInvocation]
      · simp [isUserInvocation]
  · have hs' : (a.sa_flags &&& SA_SIGINFO != 0) = true := by simp [hs]
    simp [userTail, hs', isUserInvocation]

/-! ## Claim theorems -/

/-- C1: for every delivery of a claimed signal to the central dispatcher in
which every installed special handler returns `false` and the
platform-recovery hook `android_handle_signal` is absent or returns `false`,
the chain record's stored user action is invoked exactly once — by the
three-argument style when the action has `SA_SIGINFO`, otherwise by the
one-argument style when the handler is neither `SIG_IGN` nor `SIG_DFL`. -/
theorem C1_fall_through_invokes_user_action_once (chains : Nat → SignalChain)
    (env : DispatchEnv) (signo : Nat) (st : DispatchState)
    (hres : ∀ h ∈ (chains signo).special_handlers, env.specialResult h.sc_sigaction = false)
    (hand : env.android = none ∨ env.android = some false)
    (hstyle : (chains signo).action.sa_flags &&& SA_SIGINFO ≠ 0 ∨
      ((chains signo).action.sa_handler ≠ SigHandler.ign ∧
       (chains signo).action.sa_handler ≠ SigHandler.dfl)) :
    (SignalChain.Handler chains env signo st).1.filter isUserInvocation =
      [if (chains signo).action.sa_flags &&& SA_SIGINFO != 0 then
         Event.userSiginfo (chains signo).action.sa_handler
       else Event.userHandler (chains signo).action.sa_handler] := by
  have ha : ¬env.android = some true := by
    rcases hand with h | h <;> simp [h]
  by_cases hmem : signo ∈ st.handling
  · rw [Handler_reentry chains env signo st hmem, if_neg ha]
    simp only [List.filter_cons]
    rw [filter_userTail _ hstyle]
    rfl
  · rw [Handler_allFalse chains env signo st hmem hres, if_neg ha]
    simp only [List.filter_append, specialTrace_no_special_eq, List.nil_append,
      List.filter_cons]
    rw [filter_userTail _ hstyle]
    rfl

/-- Witness for C1 at a concrete delivery: signal 11, two special handlers
both returning `false`, hook absent, `SA_SIGINFO`-style stored action. -/
theorem C1_witness :
    ((∀ h ∈ (chainsA 11).special_handlers, envA.specialResult h.sc_sigaction = false) ∧
      ((chainsA 11).action.sa_flags &&& SA_SIGINFO ≠ 0 ∨
        ((chainsA 11).action.sa_handler ≠ SigHandler.ign ∧
         (chainsA 11).action.sa_handler ≠ SigHandler.dfl))) ∧
    (SignalChain.Handler chainsA envA 11 stA).1.filter isUserInvocation =
      [if (chainsA 11).action.sa_flags &&& SA_SIGINFO != 0 then
         Event.userSiginfo (chainsA 11).action.sa_handler
       else Event.userHandler (chainsA 11).action.sa_handler] :=
  ⟨⟨by decide, by decide⟩,
   C1_fall_through_invokes_user_action_once chainsA envA 11 stA (by decide)
     (Or.inl rfl) (by decide)⟩

/-- C4: when the dispatcher is entered for `signo` on a thread whose handling
bit for `signo` is already set, no special handler is invoked in that run;
the dispatcher proceeds directly to the platform-recovery phase and the
chained-user-action phase. -/
theorem C4_reentry_skips_special_phase (chains : Nat → SignalChain) (env : DispatchEnv)
    (signo : Nat) (st : DispatchState) (hmem : signo ∈ st.handling) :
    (∀ e ∈ (SignalChain.Handler chains env signo st).1, isSpecialCall e = false) ∧
    (SignalChain.Handler chains env signo st).1 =
      (if env.android = some true then []
       else Event.setMask (userMask (chains signo).action env.uc_sigmask signo) ::
         userTail (chains signo).action) := by
  rw [Handler_reentry chains env signo st hmem]
  by_cases ha : env.android = some true
  · simp [ha]
  · rw [if_neg ha, if_neg ha]
    refine ⟨?_, rfl⟩
    intro e he
    rcases List.mem_cons.1 he with rfl | he2
    · rfl
    · exact userTail_no_special _ e he2

/-- Witness for C4: re-entry for signal 11 with the handling bit set. -/
theorem C4_witness :
    11 ∈ stB.handling ∧
    ((∀ e ∈ (SignalChain.Handler chainsA envA 11 stB).1, isSpecialCall e = false) ∧
      (SignalChain.Handler chainsA envA 11 stB).1 =
        (if envA.android = some true then []
         else Event.setMask (userMask (chainsA 11).action envA.uc_sigmask 11) ::
           userTail (chainsA 11).action)) :=
  ⟨by decide, C4_reentry_skips_special_phase chainsA envA 11 stB (by decide)⟩

/-- C5: in the chained-user-action phase, the mask installed through the real
`sigprocmask(SIG_SETMASK, ...)` immediately before dispatching the stored
action is the union of the ucontext's saved mask and the action's mask, with
`signo` added exactly when the action lacks `SA_NODEFER`; it is also the
thread mask the dispatcher leaves installed. -/
theorem C5_user_phase_mask (chains : Nat → SignalChain) (env : DispatchEnv)
    (signo : Nat) (st : DispatchState)
    (hres : ∀ h ∈ (chains signo).special_handlers, env.specialResult h.sc_sigaction = false)
    (hand : env.android ≠ some true) :
    ∃ t, (SignalChain.Handler chains env signo st).1 =
        t ++ Event.setMask (env.uc_sigmask ∪ (chains signo).action.sa_mask ∪
          (if (chains signo).action.sa_flags &&& SA_NODEFER = 0 then {signo} else ∅)) ::
          userTail (chains signo).action ∧
      (∀ e ∈ t, isUserInvocation e = false) ∧
      (SignalChain.Handler chains env signo st).2.threadMask =
        env.uc_sigmask ∪ (chains signo).action.sa_mask ∪
          (if (chains signo).action.sa_flags &&& SA_NODEFER = 0 then {signo} else ∅) := by
  rw [← userMask_eq (chains signo).action env.uc_sigmask signo]
  by_cases hmem : signo ∈ st.handling
  · refine ⟨[], ?_, by simp, ?_⟩
    · rw [Handler_reentry chains env signo st hmem, if_neg hand]
      simp
    · rw [Handler_reentry chains env signo st hmem, if_neg hand]
  · refine ⟨specialTrace st.threadMask (chains signo).special_handlers, ?_,
      specialTrace_no_user _ _, ?_⟩
    · rw [Handler_allFalse chains env signo st hmem hres, if_neg hand]
    · rw [Handler_allFalse chains env signo st hmem hres, if_neg hand]

/-- Witness for C5 at the concrete delivery of C1's scenario. -/
theorem C5_witness :
    (∀ h ∈ (chainsA 11).special_handlers, envA.specialResult h.sc_sigaction = false) ∧
    ∃ t, (SignalChain.Handler chainsA envA 11 stA).1 =
        t ++ Event.setMask (envA.uc_sigmask ∪ (chainsA 11).action.sa_mask ∪
          (if (chainsA 11).action.sa_flags &&& SA_NODEFER = 0 then {11} else ∅)) ::
          userTail (chainsA 11).action ∧
      (∀ e ∈ t, isUserInvocation e = false) ∧
      (SignalChain.Handler chainsA envA 11 stA).2.threadMask =
        envA.uc_sigmask ∪ (chainsA 11).action.sa_mask ∪
          (if (chainsA 11).action.sa_flags &&& SA_NODEFER = 0 then {11} else ∅) :=
  ⟨by decide, C5_user_phase_mask chainsA envA 11 stA (by decide) (by simp [envA])⟩

/-- C6: the handling bit is set exactly for the dynamic extent of a
special-handler call that did not declare `ALLOW_NORETURN` (the recorded
bit-during-call equals the negation of the handler's `ALLOW_NORETURN` flag,
in every reachable call the special phase makes), and the dispatcher
restores the thread's handling bitmap to its entry value — also when a
handler returns `true`. -/
theorem C6_handling_bit_scoped (chains : Nat → SignalChain) (env : DispatchEnv)
    (signo : Nat) (st : DispatchState) :
    (∀ id nr bd, Event.specialCall id nr bd ∈ (SignalChain.Handler chains env signo st).1 →
        bd = !nr) ∧
    (SignalChain.Handler chains env signo st).2.handling = st.handling := by
  by_cases hmem : signo ∈ st.handling
  · rw [Handler_reentry chains env signo st hmem]
    by_cases ha : env.android = some true
    · simp [ha]
    · rw [if_neg ha]
      refine ⟨?_, rfl⟩
      intro id nr bd hb
      rcases List.mem_cons.1 hb with h | h
      · exact absurd h (by simp)
      · have := userTail_no_special (chains signo).action _ h
        simp [isSpecialCall] at this
  · have hrs := runSpecials_handling env signo (chains signo).special_handlers st hmem
    rw [SignalChain.Handler, if_neg hmem]
    by_cases hb2 : (runSpecials env signo (chains signo).special_handlers st).2.2
    · simp only [hb2, if_true]
      exact ⟨fun id nr bd hb => hrs.2 id nr bd hb, hrs.1⟩
    · have hb2' : (runSpecials env signo (chains signo).special_handlers st).2.2 = false := by
        simpa using hb2
      simp only [hb2', Bool.false_eq_true, if_false]
      by_cases ha : env.android = some true
      · simp only [ha, if_true]
        exact ⟨fun id nr bd hb => hrs.2 id nr bd hb, hrs.1⟩
      · simp only [if_neg ha]
        refine ⟨?_, hrs.1⟩
        intro id nr bd hb
        rcases List.mem_append.1 hb with h | h
        · exact hrs.2 id nr bd h
        · rcases List.mem_cons.1 h with h2 | h2
          · exact absurd h2 (by simp)
          · have := userTail_no_special (chains signo).action _ h2
            simp [isSpecialCall] at this

/-- Witness for C6 at a concrete delivery: one plain and one
`ALLOW_NORETURN` special handler, starting with an empty bitmap. -/
theorem C6_witness :
    (∀ id nr bd, Event.specialCall id nr bd ∈ (SignalChain.Handler chainsA envA 11 stA).1 →
        bd = !nr) ∧
    (SignalChain.Handler chainsA envA 11 stA).2.handling = stA.handling :=
  C6_handling_bit_scoped chainsA envA 11 stA

theorem mem_foldlErase (chains : Nat → SignalChain) (l : List Nat) (m : Finset Nat) (x : Nat) :
    (x ∈ l.foldl
      (fun acc i => if (chains i).claimed = true ∧ i ∈ acc then acc.erase i else acc) m) ↔
      x ∈ m ∧ ((chains x).claimed = true → x ∉ l) := by
  induction l generalizing m with
  | nil => simp
  | cons i t ih =>
    simp only [List.foldl_cons, ih, List.mem_cons]
    by_cases hc : (chains i).claimed = true ∧ i ∈ m
    · rw [if_pos hc]
      simp only [Finset.mem_erase]
      constructor
      · rintro ⟨⟨hxi, hxm⟩, himp⟩
        refine ⟨hxm, fun hcl => ?_⟩
        rintro (rfl | hxt)
        · exact hxi rfl
        · exact himp hcl hxt
      · rintro ⟨hxm, himp⟩
        by_cases hxi : x = i
        · subst hxi
          exact absurd (Or.inl rfl) (himp hc.1)
        · exact ⟨⟨hxi, hxm⟩, fun hcl hxt => himp hcl (Or.inr hxt)⟩
    · rw [if_neg hc]
      constructor
      · rintro ⟨hxm, himp⟩
        refine ⟨hxm, fun hcl => ?_⟩
        rintro (rfl | hxt)
        · exact hc ⟨hcl, hxm⟩
        · exact himp hcl hxt
      · rintro ⟨hxm, himp⟩
        exact ⟨hxm, fun hcl hxt => himp hcl (Or.inr hxt)⟩

theorem mem_filterClaimed (chains : Nat → SignalChain) (m : Finset Nat) (x : Nat) :
    x ∈ filterClaimed chains m ↔
      x ∈ m ∧ ((chains x).claimed = true → ¬(1 ≤ x ∧ x < NSIG)) := by
  rw [filterClaimed, mem_foldlErase]
  have hr : x ∈ List.range' 1 (NSIG - 1) ↔ 1 ≤ x ∧ x < NSIG := by
    have hN : NSIG = 65 := rfl
    rw [List.mem_range'_1, hN]
  rw [not_iff_not.2 hr]

/-- C3: the interposed `sigprocmask` forwards its arguments unmodified when
any handling bit of the calling thread is set; otherwise, for `SIG_BLOCK` or
`SIG_SETMASK` with a non-null new set, it forwards the new set with every
claimed signal removed, so the call never leaves a claimed signal blocked in
the resulting mask unless it was blocked already. -/
theorem C3_sigprocmask_filters_claimed (chains : Nat → SignalChain) (handling : Finset Nat)
    (how : SigHow) (new_set : Option (Finset Nat)) (cur : Finset Nat) :
    (handling ≠ ∅ → __sigprocmask chains handling how new_set = (how, new_set)) ∧
    (handling = ∅ → (how = SigHow.block ∨ how = SigHow.setmask) →
      ∀ m, new_set = some m →
        __sigprocmask chains handling how new_set = (how, some (filterClaimed chains m)) ∧
        ∀ s, 0 < s → s < NSIG → (chains s).claimed = true →
          s ∉ filterClaimed chains m ∧
          (s ∈ resultingMask cur (__sigprocmask chains handling how new_set) → s ∈ cur)) := by
  constructor
  · intro hne
    rw [__sigprocmask.eq_def, if_pos hne]
  · intro he hhow m hm
    subst hm
    subst he
    have heq : __sigprocmask chains ∅ how (some m) =
        (how, some (filterClaimed chains m)) := by
      rw [__sigprocmask.eq_def, if_neg (by simp)]
      exact if_pos hhow
    refine ⟨heq, fun s hs1 hs2 hcl => ?_⟩
    have hnotmem : s ∉ filterClaimed chains m := by
      rw [mem_filterClaimed]
      rintro ⟨-, himp⟩
      exact himp hcl ⟨hs1, hs2⟩
    refine ⟨hnotmem, ?_⟩
    rw [heq]
    rcases hhow with rfl | rfl
    · intro hres
      simp only [resultingMask, applyHow, Finset.mem_union] at hres
      rcases hres with h | h
      · exact h
      · exact absurd h hnotmem
    · intro hres
      simp only [resultingMask, applyHow] at hres
      exact absurd hres hnotmem

/-- Witness for C3: with no handling bit set, blocking `{11, 12}` while
signal 11 is claimed forwards only `{12}`, and 11 stays unblocked. -/
theorem C3_witness :
    ((∅ : Finset Nat) = ∅ ∧ (chainsA 11).claimed = true) ∧
    (__sigprocmask chainsA ∅ SigHow.block (some {11, 12}) =
      (SigHow.block, some (filterClaimed chainsA {11, 12})) ∧
     11 ∉ filterClaimed chainsA {11, 12} ∧
     (11 ∈ resultingMask ∅ (__sigprocmask chainsA ∅ SigHow.block (some {11, 12})) →
       11 ∈ (∅ : Finset Nat))) := by
  have h := (C3_sigprocmask_filters_claimed chainsA ∅ SigHow.block (some {11, 12}) ∅).2
    rfl (Or.inl rfl) {11, 12} rfl
  have h11 := h.2 11 (by decide) (by decide) (by decide)
  exact ⟨⟨rfl, by decide⟩, h.1, h11.1, h11.2⟩

/-- C2 (amended): provided the debug bypass installed by
`SkipAddSignalHandler(true)` is off, the interposed `sigaction` on a
claimed, valid signal copies the chain record's previous action to `*old`,
stores the new action with its flags masked by `kernel_supported_flags`,
returns 0 without reaching the real libc `sigaction` or the kernel, and a
subsequent query returns flags equal to
`new.sa_flags &&& kernel_supported_flags`. -/
theorem C2_claimed_sigaction_records_action (st : SigchainState) (s : Nat) (a : SigAction)
    (h1 : 0 < s) (h2 : s < NSIG) (hcl : (st.chains s).claimed = true)
    (hdbg : st.is_signal_hook_debuggable = false) :
    (__sigaction st (s : Int) (some a) true).ret = 0 ∧
    (__sigaction st (s : Int) (some a) true).errno = none ∧
    (__sigaction st (s : Int) (some a) true).old_out = some (st.chains s).action ∧
    (__sigaction st (s : Int) (some a) true).linked_called = false ∧
    (__sigaction st (s : Int) (some a) true).state.kernel = st.kernel ∧
    ((__sigaction st (s : Int) (some a) true).state.chains s).action =
      { a with sa_flags := a.sa_flags &&& (st.chains s).kernel_supported_flags } ∧
    (__sigaction (__sigaction st (s : Int) (some a) true).state (s : Int) none
        true).old_out.map SigAction.sa_flags =
      some (a.sa_flags &&& (st.chains s).kernel_supported_flags) := by
  have hN : NSIG = 65 := rfl
  have hrange : ¬((s : Int) ≤ 0 ∨ (NSIG : Int) ≤ (s : Int)) := by
    rw [hN] at h2
    rw [hN]
    push_cast
    omega
  simp only [__sigaction, hdbg, Bool.false_eq_true, if_false, if_neg hrange,
    Int.toNat_natCast, hcl, if_true, SignalChain.GetAction, SignalChain.SetAction,
    Function.update_same, Option.map_some]
  simp

/-- Witness for C2 at signal 11 of the sample claimed state. -/
theorem C2_witness :
    ((sstA.chains 11).claimed = true ∧ sstA.is_signal_hook_debuggable = false) ∧
    ((__sigaction sstA (11 : Int) (some ⟨SigHandler.user 9, SA_RESTART ||| SA_UNSUPPORTED, {3}⟩)
        true).ret = 0 ∧
     (__sigaction sstA (11 : Int) (some ⟨SigHandler.user 9, SA_RESTART ||| SA_UNSUPPORTED, {3}⟩)
        true).errno = none ∧
     (__sigaction sstA (11 : Int) (some ⟨SigHandler.user 9, SA_RESTART ||| SA_UNSUPPORTED, {3}⟩)
        true).old_out = some (sstA.chains 11).action ∧
     (__sigaction sstA (11 : Int) (some ⟨SigHandler.user 9, SA_RESTART ||| SA_UNSUPPORTED, {3}⟩)
        true).linked_called = false ∧
     (__sigaction sstA (11 : Int) (some ⟨SigHandler.user 9, SA_RESTART ||| SA_UNSUPPORTED, {3}⟩)
        true).state.kernel = sstA.kernel ∧
     ((__sigaction sstA (11 : Int) (some ⟨SigHandler.user 9, SA_RESTART ||| SA_UNSUPPORTED, {3}⟩)
        true).state.chains 11).action =
       { sa_handler := SigHandler.user 9,
         sa_flags := (SA_RESTART ||| SA_UNSUPPORTED) &&& (sstA.chains 11).kernel_supported_flags,
         sa_mask := {3} } ∧
     (__sigaction (__sigaction sstA (11 : Int)
          (some ⟨SigHandler.user 9, SA_RESTART ||| SA_UNSUPPORTED, {3}⟩) true).state
        (11 : Int) none true).old_out.map SigAction.sa_flags =
       some ((SA_RESTART ||| SA_UNSUPPORTED) &&& (sstA.chains 11).kernel_supported_flags)) :=
  ⟨⟨by decide, rfl⟩,
   C2_claimed_sigaction_records_action sstA 11
     ⟨SigHandler.user 9, SA_RESTART ||| SA_UNSUPPORTED, {3}⟩ (by decide) (by decide)
     (by decide) rfl⟩

/-- C2 counterexample: the claim quantifies over every call on a claimed
valid signal, but after `SkipAddSignalHandler(true)` the debug bypass
returns 0 before touching the chain record: the previous action is not
copied to `*old` and the incoming action is not stored. -/
theorem C2_counterexample :
    ¬((__sigaction sstDebug (11 : Int) (some ⟨SigHandler.user 9, SA_RESTART, {3}⟩)
        true).old_out = some (sstDebug.chains 11).action ∧
      ((__sigaction sstDebug (11 : Int) (some ⟨SigHandler.user 9, SA_RESTART, {3}⟩)
          true).state.chains 11).action =
        { sa_handler := SigHandler.user 9,
          sa_flags := SA_RESTART &&& (sstDebug.chains 11).kernel_supported_flags,
          sa_mask := {3} }) := by
  decide

/-- C7 (amended): provided the debug bypass installed by
`SkipAddSignalHandler(true)` is off, the interposed `sigaction` returns -1
with errno `EINVAL` for every signal number outside `(0, NSIG)`. -/
theorem C7_invalid_signo_einval (st : SigchainState) (signo : Int)
    (new_action : Option SigAction) (wantOld : Bool)
    (hdbg : st.is_signal_hook_debuggable = false)
    (hs : signo ≤ 0 ∨ (NSIG : Int) ≤ signo) :
    (__sigaction st signo new_action wantOld).ret = -1 ∧
    (__sigaction st signo new_action wantOld).errno = some EINVAL := by
  simp [__sigaction, hdbg, hs]

/-- Witness for C7 at `signo = 0` with the debug bypass off. -/
theorem C7_witness :
    (sstA.is_signal_hook_debuggable = false ∧ ((0 : Int) ≤ 0 ∨ (NSIG : Int) ≤ 0)) ∧
    ((__sigaction sstA 0 (some actA) true).ret = -1 ∧
     (__sigaction sstA 0 (some actA) true).errno = some EINVAL) :=
  ⟨⟨rfl, Or.inl (le_refl 0)⟩,
   C7_invalid_signo_einval sstA 0 (some actA) true rfl (Or.inl (le_refl 0))⟩

/-- C7 counterexample: the claim quantifies over every program state, but
after `SkipAddSignalHandler(true)` the debug bypass precedes the range
check, so `sigaction(0, ...)` returns 0 and leaves errno unset instead of
failing with `EINVAL`. -/
theorem C7_counterexample :
    ¬((__sigaction sstDebug 0 none false).ret = -1 ∧
      (__sigaction sstDebug 0 none false).errno = some EINVAL) := by
  decide

/-- C8: at claim time, `kernel_supported_flags` is the hard-coded baseline
`SA_NOCLDSTOP | SA_NOCLDWAIT | SA_SIGINFO | SA_ONSTACK | SA_RESTART |
SA_NODEFER | SA_RESETHAND | SA_RESTORER`, with `SA_EXPOSE_TAGBITS` added iff
the action read back from the kernel has `SA_UNSUPPORTED` cleared and
`SA_EXPOSE_TAGBITS` present. -/
theorem C8_kernel_supported_flags_probe (st : SigchainState) (signo : Nat) :
    ((SignalChain.Register st signo).chains signo).kernel_supported_flags =
      (if (st.kaccept registerAction).sa_flags &&& SA_UNSUPPORTED = 0 ∧
          (st.kaccept registerAction).sa_flags &&& SA_EXPOSE_TAGBITS ≠ 0
       then (SA_NOCLDSTOP ||| SA_NOCLDWAIT ||| SA_SIGINFO ||| SA_ONSTACK ||| SA_RESTART |||
         SA_NODEFER ||| SA_RESETHAND ||| SA_RESTORER) ||| SA_EXPOSE_TAGBITS
       else SA_NOCLDSTOP ||| SA_NOCLDWAIT ||| SA_SIGINFO ||| SA_ONSTACK ||| SA_RESTART |||
         SA_NODEFER ||| SA_RESETHAND ||| SA_RESTORER) := by
  simp [SignalChain.Register, linked_sigaction, Function.update_same]

/-- C9 (amended): provided the debug bypass is off, the interposed `signal`
agrees with the interposed `sigaction` applied to the action
`⟨handler, SA_RESTART | SA_ONSTACK, ∅⟩`: same resulting state, the return
value is the previous one-argument handler read back through `*old`, and it
is `SIG_ERR` exactly when the `sigaction` call fails. -/
theorem C9_signal_equiv_sigaction (st : SigchainState) (signo : Int) (handler : SigHandler)
    (hdbg : st.is_signal_hook_debuggable = false) :
    (signal st signo handler).state =
      (__sigaction st signo (some ⟨handler, SA_RESTART ||| SA_ONSTACK, ∅⟩) true).state ∧
    (signal st signo handler).ret =
      (__sigaction st signo (some ⟨handler, SA_RESTART ||| SA_ONSTACK, ∅⟩) true).old_out.map
        SigAction.sa_handler ∧
    ((signal st signo handler).ret = none ↔
      (__sigaction st signo (some ⟨handler, SA_RESTART ||| SA_ONSTACK, ∅⟩) true).ret ≠ 0) ∧
    (signal st signo handler).errno =
      (__sigaction st signo (some ⟨handler, SA_RESTART ||| SA_ONSTACK, ∅⟩) true).errno := by
  by_cases hs : signo ≤ 0 ∨ (NSIG : Int) ≤ signo
  · simp [signal, __sigaction, hdbg, hs]
  · simp only [signal, __sigaction, hdbg, Bool.false_eq_true, if_false, if_neg hs]
    by_cases hcl : (st.chains signo.toNat).claimed
    · simp [hcl, SignalChain.GetAction]
    · simp [hcl, linked_sigaction]

/-- Witness for C9 at signal 11 of the sample claimed state. -/
theorem C9_witness :
    sstA.is_signal_hook_debuggable = false ∧
    ((signal sstA 11 (SigHandler.user 7)).state =
      (__sigaction sstA 11 (some ⟨SigHandler.user 7, SA_RESTART ||| SA_ONSTACK, ∅⟩)
        true).state ∧
     (signal sstA 11 (SigHandler.user 7)).ret =
      (__sigaction sstA 11 (some ⟨SigHandler.user 7, SA_RESTART ||| SA_ONSTACK, ∅⟩)
        true).old_out.map SigAction.sa_handler ∧
     ((signal sstA 11 (SigHandler.user 7)).ret = none ↔
      (__sigaction sstA 11 (some ⟨SigHandler.user 7, SA_RESTART ||| SA_ONSTACK, ∅⟩)
        true).ret ≠ 0) ∧
     (signal sstA 11 (SigHandler.user 7)).errno =
      (__sigaction sstA 11 (some ⟨SigHandler.user 7, SA_RESTART ||| SA_ONSTACK, ∅⟩)
        true).errno) :=
  ⟨rfl, C9_signal_equiv_sigaction sstA 11 (SigHandler.user 7) rfl⟩

/-- C9 counterexample: with the debug bypass on, `sigaction` does nothing
and writes no `*old`, while `signal` still updates the claimed chain record
and returns the previous handler, so the stated equivalence fails. -/
theorem C9_counterexample :
    ¬((signal sstDebug 11 (SigHandler.user 7)).ret =
      (__sigaction sstDebug 11 (some ⟨SigHandler.user 7, SA_RESTART ||| SA_ONSTACK, ∅⟩)
        true).old_out.map SigAction.sa_handler) := by
  decide

/-- C10: when `EnsureFrontOfChain` finds the kernel disposition is not the
central dispatcher, the re-registration overwrites both the stored user
action and `orig_action` with the clobbering disposition and recomputes
`kernel_supported_flags`; a previously stored user action that differs from
the clobbering disposition is lost. -/
theorem C10_ensure_front_overwrites (st : SigchainState) (signo : Nat)
    (hnd : (st.kernel signo).sa_handler ≠ SigHandler.dispatcher) :
    ((EnsureFrontOfChain st signo).chains signo).action = st.kernel signo ∧
    ((EnsureFrontOfChain st signo).chains signo).orig_action = st.kernel signo ∧
    ((EnsureFrontOfChain st signo).chains signo).kernel_supported_flags =
      (if (st.kaccept registerAction).sa_flags &&& SA_UNSUPPORTED = 0 ∧
          (st.kaccept registerAction).sa_flags &&& SA_EXPOSE_TAGBITS ≠ 0
       then (SA_NOCLDSTOP ||| SA_NOCLDWAIT ||| SA_SIGINFO ||| SA_ONSTACK ||| SA_RESTART |||
         SA_NODEFER ||| SA_RESETHAND ||| SA_RESTORER) ||| SA_EXPOSE_TAGBITS
       else SA_NOCLDSTOP ||| SA_NOCLDWAIT ||| SA_SIGINFO ||| SA_ONSTACK ||| SA_RESTART |||
         SA_NODEFER ||| SA_RESETHAND ||| SA_RESTORER) ∧
    ((st.chains signo).action ≠ st.kernel signo →
      ((EnsureFrontOfChain st signo).chains signo).action ≠ (st.chains signo).action) := by
  have he : EnsureFrontOfChain st signo = SignalChain.Register st signo := by
    rw [EnsureFrontOfChain, linked_sigaction, if_pos hnd]
  rw [he]
  have ha : ((SignalChain.Register st signo).chains signo).action = st.kernel signo := by
    simp [SignalChain.Register, linked_sigaction, Function.update_same]
  refine ⟨ha, ?_, ?_, ?_⟩
  · simp [SignalChain.Register, linked_sigaction, Function.update_same]
  · simp [SignalChain.Register, linked_sigaction, Function.update_same]
  · intro hne
    rw [ha]
    exact fun hh => hne hh.symm

/-- Witness for C10: a clobbered kernel disposition for signal 11 replaces
the stored user action of the sample claimed state. -/
theorem C10_witness :
    (sstClobbered.kernel 11).sa_handler ≠ SigHandler.dispatcher ∧
    (((EnsureFrontOfChain sstClobbered 11).chains 11).action = sstClobbered.kernel 11 ∧
     ((EnsureFrontOfChain sstClobbered 11).chains 11).orig_action = sstClobbered.kernel 11 ∧
     ((EnsureFrontOfChain sstClobbered 11).chains 11).kernel_supported_flags =
       (if (sstClobbered.kaccept registerAction).sa_flags &&& SA_UNSUPPORTED = 0 ∧
           (sstClobbered.kaccept registerAction).sa_flags &&& SA_EXPOSE_TAGBITS ≠ 0
        then (SA_NOCLDSTOP ||| SA_NOCLDWAIT ||| SA_SIGINFO ||| SA_ONSTACK ||| SA_RESTART |||
          SA_NODEFER ||| SA_RESETHAND ||| SA_RESTORER) ||| SA_EXPOSE_TAGBITS
        else SA_NOCLDSTOP ||| SA_NOCLDWAIT ||| SA_SIGINFO ||| SA_ONSTACK ||| SA_RESTART |||
          SA_NODEFER ||| SA_RESETHAND ||| SA_RESTORER) ∧
     ((sstClobbered.chains 11).action ≠ sstClobbered.kernel 11 →
       ((EnsureFrontOfChain sstClobbered 11).chains 11).action ≠
         (sstClobbered.chains 11).action)) :=
  ⟨by decide, C10_ensure_front_overwrites sstClobbered 11 (by decide)⟩

end art
